import Mathlib

/-!
Verification of the enum coercion, validation and execution behavior of the
query-language execution core, as exercised by the enum executor tests.
The schema under test declares an enum Color with variants Red, Green, Blue
mapped to external names RED, GREEN, BLUE, and an object type TestType with
fields to_string(color: Color) and a_color, exposed under camelCase names.
The engine itself (parser, coercion engine, validator, executor) is not part
of the provided sources; it is modelled from the specification, restricted to
the slice of the grammar and type system these claims exercise.
-/

namespace JuniperEnums

/-- Source position attached to tokens and AST nodes: 0-based byte index,
line and column, as the spec describes for the position-tracking parser. -/
structure SourcePosition where
  index : Nat
  line : Nat
  col : Nat
  deriving Repr, DecidableEq

/-- External literal syntax produced by the parser, per the spec data model.
Float literals are omitted: none of the verified behaviors involve them. -/
inductive InputValue where
  | null
  | int (n : Int)
  | string (s : String)
  | boolean (b : Bool)
  | enum (name : String)
  | list (elems : List InputValue)
  | object (fields : List (String × InputValue))
  | var (name : String)
  deriving Repr

/-- Internal runtime value produced by coercion or by resolvers, per the spec
data model: no variable and no raw enum variant; enum values are carried as
the external name string. Float omitted as above. -/
inductive Value where
  | null
  | int (n : Int)
  | string (s : String)
  | boolean (b : Bool)
  | list (elems : List Value)
  | object (fields : List (String × Value))
  deriving Repr

/-- A user-facing error message with its ordered source positions. -/
structure RuleError where
  message : String
  locations : List SourcePosition
  deriving Repr, DecidableEq

/-- Top-level error taxonomy of the entry point. -/
inductive GraphQLError where
  | parseError
  | validationError (errors : List RuleError)
  deriving Repr, DecidableEq

/-- The enum under test, as declared in the source file. -/
inductive Color where
  | red
  | green
  | blue
  deriving Repr, DecidableEq

/-- External names of the Color variants, from the declared bijection
Color::Red to RED, Color::Green to GREEN, Color::Blue to BLUE. -/
def colorToExternal : Color → String
  | .red => "RED"
  | .green => "GREEN"
  | .blue => "BLUE"

/-- Reverse direction of the declared bijection: external name to variant. -/
def colorFromExternal (s : String) : Option Color :=
  if s = "RED" then some .red
  else if s = "GREEN" then some .green
  else if s = "BLUE" then some .blue
  else none

/-- Debug rendering of a variant, as the derived Debug formatting prints it;
the to_string resolver formats its argument through this. -/
def colorDebug : Color → String
  | .red => "Red"
  | .green => "Green"
  | .blue => "Blue"

/-! Parser. Modelled from the spec: the position-tracking parser is not in
the provided sources. It covers the grammar slice the verified queries use:
an anonymous selection set or a named query operation with non-null variable
definitions, flat fields with literal or variable arguments, and literal
values of enum-name, string, integer, boolean and null kinds. -/

/-- Advance a source position over one character; newline resets the column
and bumps the line, as the spec requires of the parser. -/
def advance (p : SourcePosition) (c : Char) : SourcePosition :=
  if c = '\n' then ⟨p.index + 1, p.line + 1, 0⟩
  else ⟨p.index + 1, p.line, p.col + 1⟩

/-- Characters the grammar ignores between tokens. -/
def isIgnored (c : Char) : Bool :=
  c = ' ' || c = '\n' || c = '\t' || c = '\r' || c = ','

/-- Skip ignored characters, tracking the position. -/
def skipIgnored : List Char → SourcePosition → List Char × SourcePosition
  | [], p => ([], p)
  | c :: rest, p =>
    if isIgnored c then skipIgnored rest (advance p c) else (c :: rest, p)

/-- Leading character of a name. -/
def isNameStart (c : Char) : Bool := c.isAlpha || c = '_'

/-- Continuation character of a name. -/
def isNameChar (c : Char) : Bool := isNameStart c || c.isDigit

/-- Consume the longest run of name characters. -/
def takeNameChars : List Char → SourcePosition → List Char × List Char × SourcePosition
  | [], p => ([], [], p)
  | c :: rest, p =>
    if isNameChar c then
      let r := takeNameChars rest (advance p c)
      (c :: r.1, r.2.1, r.2.2)
    else ([], c :: rest, p)

/-- Parse one name token; fails when the next character cannot start one. -/
def parseName (cs : List Char) (p : SourcePosition) :
    Option (String × List Char × SourcePosition) :=
  match cs with
  | [] => none
  | c :: _ =>
    if isNameStart c then
      let r := takeNameChars cs p
      some (String.mk r.1, r.2.1, r.2.2)
    else none

/-- Consume the body of a quoted string up to the closing quote. -/
def takeStringBody : List Char → SourcePosition →
    Option (List Char × List Char × SourcePosition)
  | [], _ => none
  | c :: rest, p =>
    if c = '"' then some ([], rest, advance p c)
    else
      match takeStringBody rest (advance p c) with
      | some (body, r, p2) => some (c :: body, r, p2)
      | none => none

/-- Consume the longest run of decimal digits. -/
def takeDigits : List Char → SourcePosition → List Char × List Char × SourcePosition
  | [], p => ([], [], p)
  | c :: rest, p =>
    if c.isDigit then
      let r := takeDigits rest (advance p c)
      (c :: r.1, r.2.1, r.2.2)
    else ([], c :: rest, p)

/-- Decimal digits to a natural number. -/
def digitsToNat (cs : List Char) : Nat :=
  cs.foldl (fun acc c => acc * 10 + (c.toNat - 48)) 0

/-- A parsed item together with the source position of its first character. -/
structure Spanned (α : Type) where
  start : SourcePosition
  item : α
  deriving Repr

/-- Parse one literal or variable value, recording its start position. -/
def parseValueLit (cs0 : List Char) (p0 : SourcePosition) :
    Option (Spanned InputValue × List Char × SourcePosition) :=
  let sp := skipIgnored cs0 p0
  match sp.1 with
  | [] => none
  | c :: rest =>
    if c = '$' then
      match parseName rest (advance sp.2 c) with
      | some (nm, r, p2) => some (⟨sp.2, InputValue.var nm⟩, r, p2)
      | none => none
    else if c = '"' then
      match takeStringBody rest (advance sp.2 c) with
      | some (body, r, p2) => some (⟨sp.2, InputValue.string (String.mk body)⟩, r, p2)
      | none => none
    else if c = '-' then
      let d := takeDigits rest (advance sp.2 c)
      if d.1 = [] then none
      else some (⟨sp.2, InputValue.int (-(Int.ofNat (digitsToNat d.1)))⟩, d.2.1, d.2.2)
    else if c.isDigit then
      let d := takeDigits sp.1 sp.2
      some (⟨sp.2, InputValue.int (Int.ofNat (digitsToNat d.1))⟩, d.2.1, d.2.2)
    else if isNameStart c then
      match parseName sp.1 sp.2 with
      | some (nm, r, p2) =>
        if nm = "true" then some (⟨sp.2, InputValue.boolean true⟩, r, p2)
        else if nm = "false" then some (⟨sp.2, InputValue.boolean false⟩, r, p2)
        else if nm = "null" then some (⟨sp.2, InputValue.null⟩, r, p2)
        else some (⟨sp.2, InputValue.enum nm⟩, r, p2)
      | none => none
    else none

/-- Expect one specific punctuator after ignored characters. -/
def expectChar (c : Char) (cs0 : List Char) (p0 : SourcePosition) :
    Option (List Char × SourcePosition) :=
  let sp := skipIgnored cs0 p0
  match sp.1 with
  | [] => none
  | x :: rest => if x = c then some (rest, advance sp.2 x) else none

/-- Parse argument items up to the closing parenthesis. -/
def parseArgItems : Nat → List Char → SourcePosition →
    Option (List (String × Spanned InputValue) × List Char × SourcePosition)
  | 0, _, _ => none
  | Nat.succ fuel, cs0, p0 =>
    let sp := skipIgnored cs0 p0
    match sp.1 with
    | [] => none
    | c :: rest =>
      if c = ')' then some ([], rest, advance sp.2 c)
      else
        match parseName sp.1 sp.2 with
        | none => none
        | some (nm, r1, p1) =>
          match expectChar ':' r1 p1 with
          | none => none
          | some (r2, p2) =>
            match parseValueLit r2 p2 with
            | none => none
            | some (v, r3, p3) =>
              match parseArgItems fuel r3 p3 with
              | none => none
              | some (restArgs, r4, p4) => some ((nm, v) :: restArgs, r4, p4)

/-- A selected field: its own start position, its name as written in the
query, and its supplied arguments with their value positions. -/
structure Field where
  position : SourcePosition
  name : String
  args : List (String × Spanned InputValue)
  deriving Repr

/-- Parse fields of a selection set up to the closing brace. -/
def parseFields : Nat → List Char → SourcePosition →
    Option (List Field × List Char × SourcePosition)
  | 0, _, _ => none
  | Nat.succ fuel, cs0, p0 =>
    let sp := skipIgnored cs0 p0
    match sp.1 with
    | [] => none
    | c :: rest =>
      if c = Char.ofNat 125 then some ([], rest, advance sp.2 c)
      else
        match parseName sp.1 sp.2 with
        | none => none
        | some (nm, r1, p1) =>
          let sp1 := skipIgnored r1 p1
          match sp1.1 with
          | '(' :: r2 =>
            match parseArgItems (r2.length + 1) r2 (advance sp1.2 '(') with
            | none => none
            | some (args, r3, p3) =>
              match parseFields fuel r3 p3 with
              | none => none
              | some (fs, r4, p4) => some (⟨sp.2, nm, args⟩ :: fs, r4, p4)
          | _ =>
            match parseFields fuel sp1.1 sp1.2 with
            | none => none
            | some (fs, r4, p4) => some (⟨sp.2, nm, []⟩ :: fs, r4, p4)

/-- A variable definition: the position of its dollar sign, its name, the
named type it declares and whether that type is wrapped non-null. -/
structure VariableDefinition where
  position : SourcePosition
  name : String
  tyName : String
  nonNull : Bool
  deriving Repr, DecidableEq

/-- Parse variable definition items up to the closing parenthesis. -/
def parseVarDefItems : Nat → List Char → SourcePosition →
    Option (List VariableDefinition × List Char × SourcePosition)
  | 0, _, _ => none
  | Nat.succ fuel, cs0, p0 =>
    let sp := skipIgnored cs0 p0
    match sp.1 with
    | [] => none
    | c :: rest =>
      if c = ')' then some ([], rest, advance sp.2 c)
      else if c = '$' then
        match parseName rest (advance sp.2 c) with
        | none => none
        | some (nm, r1, p1) =>
          match expectChar ':' r1 p1 with
          | none => none
          | some (r2, p2) =>
            let sp2 := skipIgnored r2 p2
            match parseName sp2.1 sp2.2 with
            | none => none
            | some (ty, r3, p3) =>
              match r3 with
              | '!' :: r4 =>
                match parseVarDefItems fuel r4 (advance p3 '!') with
                | none => none
                | some (ds, r5, p5) => some (⟨sp.2, nm, ty, true⟩ :: ds, r5, p5)
              | _ =>
                match parseVarDefItems fuel r3 p3 with
                | none => none
                | some (ds, r5, p5) => some (⟨sp.2, nm, ty, false⟩ :: ds, r5, p5)
      else none

/-- A parsed document: the operation name when one is written, the variable
definitions, and the root selection set. -/
structure Document where
  opName : Option String
  varDefs : List VariableDefinition
  selection : List Field
  deriving Repr

/-- Parse a whole query document; requires all input consumed. -/
def parseDocument (text : String) : Option Document :=
  let cs := text.toList
  let sp := skipIgnored cs ⟨0, 0, 0⟩
  match sp.1 with
  | [] => none
  | c :: rest =>
    if c = Char.ofNat 123 then
      match parseFields (rest.length + 1) rest (advance sp.2 c) with
      | none => none
      | some (fs, r, p) =>
        let fin := skipIgnored r p
        if fin.1 = [] then some ⟨none, [], fs⟩ else none
    else
      match parseName sp.1 sp.2 with
      | none => none
      | some (kw, r1, p1) =>
        if kw = "query" then
          let s1 := skipIgnored r1 p1
          match parseName s1.1 s1.2 with
          | none => none
          | some (opnm, r2, p2) =>
            let s2 := skipIgnored r2 p2
            match s2.1 with
            | '(' :: r3 =>
              match parseVarDefItems (r3.length + 1) r3 (advance s2.2 '(') with
              | none => none
              | some (defs, r4, p4) =>
                match expectChar (Char.ofNat 123) r4 p4 with
                | none => none
                | some (r5, p5) =>
                  match parseFields (r5.length + 1) r5 p5 with
                  | none => none
                  | some (fs, r6, p6) =>
                    let fin := skipIgnored r6 p6
                    if fin.1 = [] then some ⟨some opnm, defs, fs⟩ else none
            | _ =>
              match expectChar (Char.ofNat 123) s2.1 s2.2 with
              | none => none
              | some (r5, p5) =>
                match parseFields (r5.length + 1) r5 p5 with
                | none => none
                | some (fs, r6, p6) =>
                  let fin := skipIgnored r6 p6
                  if fin.1 = [] then some ⟨some opnm, [], fs⟩ else none
        else none

/-! Type model, coercion engine, validator and executor. Modelled from the
spec: these engine components are not in the provided sources. The type
descriptor slice covers enum and non-null types, the only input types the
verified schema declares. -/

/-- Input type descriptor slice: a named enum type, possibly non-null. -/
inductive TypeRef where
  | enumType (name : String)
  | nonNull (inner : TypeRef)
  deriving Repr, DecidableEq

/-- Display form of a type, with a bang marking non-null wrapping. -/
def typeDisplay : TypeRef → String
  | .enumType nm => nm
  | .nonNull t => typeDisplay t ++ "!"

/-- The bijection lookup of the registered enum types: whether the given
external name is declared for the named enum. Only Color is registered. -/
def enumHasValue (enumName ext : String) : Bool :=
  if enumName = "Color" then (colorFromExternal ext).isSome else false

/-- Association list lookup by string key. -/
def lookupAssoc {α : Type} : List (String × α) → String → Option α
  | [], _ => none
  | (k2, v) :: rest, k => if k2 = k then some v else lookupAssoc rest k

/-- Coerce a variable-bound external value against the declared type, per
the spec coercion rules: non-null rejects null, an enum type accepts a
string or enum name resolved through the bijection, rejects an unresolvable
name with the invalid-enum message and any other kind with the
not-a-string-or-enum message. The accepted value is carried as the external
name string. -/
def coerceVariableValue : TypeRef → InputValue → Except String Value
  | .nonNull inner, v =>
    match v with
    | .null => Except.error ("Expected \"" ++ typeDisplay inner ++ "\", found null.")
    | _ => coerceVariableValue inner v
  | .enumType nm, v =>
    match v with
    | .string s =>
      if enumHasValue nm s then Except.ok (Value.string s)
      else Except.error ("Invalid value for enum \"" ++ nm ++ "\".")
    | .enum s =>
      if enumHasValue nm s then Except.ok (Value.string s)
      else Except.error ("Invalid value for enum \"" ++ nm ++ "\".")
    | _ => Except.error ("Expected \"" ++ nm ++ "\", found not a string or enum.")

/-- Resolve a variable definition against the type registry. -/
def resolveVarType (d : VariableDefinition) : Option TypeRef :=
  if d.tyName = "Color" then
    some (if d.nonNull then TypeRef.nonNull (TypeRef.enumType "Color")
      else TypeRef.enumType "Color")
  else none

/-- Coerce every declared variable against its declared type, wrapping a
coercion failure in the got-invalid-value message at the variable
definition position, per the spec validator contract. -/
def validateVariables (defs : List VariableDefinition)
    (vars : List (String × InputValue)) :
    Except (List RuleError) (List (String × Value)) :=
  match defs with
  | [] => Except.ok []
  | d :: rest =>
    match resolveVarType d with
    | none => Except.error [⟨"Unknown type \"" ++ d.tyName ++ "\"", [d.position]⟩]
    | some ty =>
      match lookupAssoc vars d.name with
      | none =>
        match ty with
        | TypeRef.nonNull _ =>
          Except.error [⟨"Variable \"$" ++ d.name ++ "\" of required type \"" ++
            typeDisplay ty ++ "\" was not provided.", [d.position]⟩]
        | _ => validateVariables rest vars
      | some raw =>
        match coerceVariableValue ty raw with
        | Except.error msg =>
          Except.error [⟨"Variable \"$" ++ d.name ++ "\" got invalid value. " ++ msg,
            [d.position]⟩]
        | Except.ok v =>
          match validateVariables rest vars with
          | Except.error es => Except.error es
          | Except.ok tbl => Except.ok ((d.name, v) :: tbl)

/-- Whether a literal input is acceptable for the given type, per the spec
coercion rules in literal position: non-null rejects null and defers, an
enum type accepts only an unquoted enum name declared in the bijection. In
particular a quoted string literal is rejected in literal position. -/
def literalValidForType : TypeRef → InputValue → Bool
  | .nonNull inner, v =>
    match v with
    | .null => false
    | _ => literalValidForType inner v
  | .enumType nm, v =>
    match v with
    | .enum s => enumHasValue nm s
    | _ => false

mutual

/-- Convert an accepted literal to its internal value; an enum name becomes
the external name string, per the spec value model. -/
def literalToValue : InputValue → Value
  | .null => Value.null
  | .int n => Value.int n
  | .string s => Value.string s
  | .boolean b => Value.boolean b
  | .enum s => Value.string s
  | .list xs => Value.list (literalListToValue xs)
  | .object fs => Value.object (literalObjToValue fs)
  | .var _ => Value.null

/-- Elementwise literal conversion of a list literal. -/
def literalListToValue : List InputValue → List Value
  | [] => []
  | v :: rest => literalToValue v :: literalListToValue rest

/-- Fieldwise literal conversion of an object literal. -/
def literalObjToValue : List (String × InputValue) → List (String × Value)
  | [] => []
  | (k, v) :: rest => (k, literalToValue v) :: literalObjToValue rest

end

/-- Coerce one supplied argument: a variable reference substitutes the
already-typed variable value without re-coercion; any literal is checked
against the declared type and a mismatch fails with the
invalid-value-for-argument message naming the displayed type, at the
position of the literal, per the spec literal path. -/
def coerceArgument (argName : String) (ty : TypeRef)
    (tvars : List (String × Value)) (sv : Spanned InputValue) :
    Except RuleError Value :=
  match sv.item with
  | .var vname =>
    match lookupAssoc tvars vname with
    | some v => Except.ok v
    | none => Except.error ⟨"Variable \"$" ++ vname ++ "\" is not defined", [sv.start]⟩
  | _ =>
    if literalValidForType ty sv.item then Except.ok (literalToValue sv.item)
    else Except.error ⟨"Invalid value for argument \"" ++ argName ++
      "\", expected type \"" ++ typeDisplay ty ++ "\"", [sv.start]⟩

/-- Declared argument of a schema field. -/
structure ArgumentDescriptor where
  name : String
  argType : TypeRef

/-- Schema field: exposed name, declared arguments, and the resolver, a
function from the coerced argument map to the field value. -/
structure FieldDescriptor where
  name : String
  args : List ArgumentDescriptor
  resolver : List (String × Value) → Value

/-- Serialize an enum variant returned by a resolver as its external name. -/
def serializeColor (c : Color) : Value := Value.string (colorToExternal c)

/-- Resolver of the to_string field: formats its Color argument through the
derived Debug rendering, as the source declares. -/
def toStringResolver (args : List (String × Value)) : Value :=
  match lookupAssoc args "color" with
  | some (Value.string s) =>
    match colorFromExternal s with
    | some c => Value.string ("Color::" ++ colorDebug c)
    | none => Value.null
  | _ => Value.null

/-- Resolver of the a_color field: returns Color::Red, as the source
declares, serialized as its external name. -/
def aColorResolver (_args : List (String × Value)) : Value :=
  serializeColor Color.red

/-- Convert a snake_case name to camelCase: an underscore is dropped and the
following character uppercased. -/
def camelChars : List Char → List Char
  | [] => []
  | c :: rest =>
    if c = '_' then
      match rest with
      | [] => []
      | c2 :: rest2 => c2.toUpper :: camelChars rest2
    else c :: camelChars rest

/-- String form of the snake_case to camelCase conversion under which
declared field names are exposed to queries. -/
def toCamelCase (s : String) : String := String.mk (camelChars s.toList)

/-- The fields of the TestType query root, from the source declaration:
to_string(color: Color) and a_color, exposed under their camelCase names.
The argument type Color is non-null, as an unadorned argument type in the
declaration slice is required. -/
def testTypeFields : List FieldDescriptor :=
  [⟨toCamelCase "to_string",
    [⟨"color", TypeRef.nonNull (TypeRef.enumType "Color")⟩],
    toStringResolver⟩,
   ⟨toCamelCase "a_color", [], aColorResolver⟩]

/-- Field lookup by exposed name on the query root. -/
def lookupField (nm : String) : Option FieldDescriptor :=
  testTypeFields.find? (fun f => f.name == nm)

/-- A field that passed validation: its response key, its resolver and its
fully coerced argument map. -/
structure ValidatedField where
  key : String
  resolver : List (String × Value) → Value
  args : List (String × Value)

/-- Coerce the supplied arguments of one field against its declared
argument list; a missing non-null argument without a default fails. -/
def coerceFieldArgs (supplied : List (String × Spanned InputValue))
    (decls : List ArgumentDescriptor) (tvars : List (String × Value))
    (fpos : SourcePosition) : Except RuleError (List (String × Value)) :=
  match decls with
  | [] => Except.ok []
  | d :: rest =>
    match lookupAssoc supplied d.name with
    | none =>
      match d.argType with
      | TypeRef.nonNull _ =>
        Except.error ⟨"Missing required argument \"" ++ d.name ++ "\"", [fpos]⟩
      | _ => coerceFieldArgs supplied rest tvars fpos
    | some sv =>
      match coerceArgument d.name d.argType tvars sv with
      | Except.error e => Except.error e
      | Except.ok v =>
        match coerceFieldArgs supplied rest tvars fpos with
        | Except.error e => Except.error e
        | Except.ok vs => Except.ok ((d.name, v) :: vs)

/-- Validate the selection set eagerly before execution: each selected field
must exist on the query root and each of its argument literals must coerce,
per the spec validator contract. -/
def validateSelection (fields : List Field) (tvars : List (String × Value)) :
    Except (List RuleError) (List ValidatedField) :=
  match fields with
  | [] => Except.ok []
  | f :: rest =>
    match lookupField f.name with
    | none => Except.error [⟨"Unknown field \"" ++ f.name ++ "\"", [f.position]⟩]
    | some fd =>
      match coerceFieldArgs f.args fd.args tvars f.position with
      | Except.error e => Except.error [e]
      | Except.ok cargs =>
        match validateSelection rest tvars with
        | Except.error es => Except.error es
        | Except.ok vs => Except.ok (⟨f.name, fd.resolver, cargs⟩ :: vs)

/-- Whole-document validation: variables first, then the selection set; a
variable failure aborts before argument checking, so a single failing
variable yields exactly one error. -/
def validate (doc : Document) (vars : List (String × InputValue)) :
    Except (List RuleError) (List ValidatedField) :=
  match validateVariables doc.varDefs vars with
  | Except.error es => Except.error es
  | Except.ok tvars => validateSelection doc.selection tvars

/-- Execute a validated selection: invoke each resolver with its coerced
arguments and key the result object in selection order. -/
def runSelection (fields : List ValidatedField) : Value :=
  Value.object (fields.map (fun f => (f.key, f.resolver f.args)))

/-- Entry point, per the spec: parse, validate, then execute. A validation
failure is returned as the error of the result with no resolver invoked and
no partial data; a successful execution carries its field-level error list,
which is empty for this schema since its resolvers cannot fail. -/
def execute (query : String) (vars : List (String × InputValue)) :
    Except GraphQLError (Value × List RuleError) :=
  match parseDocument query with
  | none => Except.error GraphQLError.parseError
  | some doc =>
    match validate doc vars with
    | Except.error errs => Except.error (GraphQLError.validationError errs)
    | Except.ok fields => Except.ok (runSelection fields, [])

/-- The accepted enum literal query from the tests. -/
def enumLiteralQuery : String := "\x7b toString(color: RED) \x7d"

/-- The output serialization query from the tests. -/
def aColorQuery : String := "\x7b aColor \x7d"

/-- The rejected quoted string literal query from the tests. -/
def stringLiteralQuery : String := "\x7b toString(color: \x22RED\x22) \x7d"

/-- The variable-driven query from the tests. -/
def variableQuery : String :=
  "query q($color: Color!) \x7b toString(color: $color) \x7d"

/-- C1: executing the query with a quoted string literal in the enum-typed
argument position fails validation with exactly one error, the message
naming the argument color and the displayed type Color!, at the source
position of the string literal, SourcePosition(18, 0, 18). -/
theorem stringLiteralRejected :
    execute stringLiteralQuery [] =
      Except.error (GraphQLError.validationError
        [⟨"Invalid value for argument \"color\", expected type \"Color!\"",
          [⟨18, 0, 18⟩]⟩]) := by
  rfl

/-- C2: executing the variable query with the variable color bound to the
unrecognized enum name BLURPLE fails validation with exactly one error, the
got-invalid-value message with the invalid-enum reason, at the variable
definition position SourcePosition(8, 0, 8). -/
theorem wrongEnumNameRejected :
    execute variableQuery [("color", InputValue.string "BLURPLE")] =
      Except.error (GraphQLError.validationError
        [⟨"Variable \"$color\" got invalid value. Invalid value for enum \"Color\".",
          [⟨8, 0, 8⟩]⟩]) := by
  rfl

/-- C3: executing the variable query with the variable color bound to the
integer 123 fails validation with exactly one error, the got-invalid-value
message with the not-a-string-or-enum reason, at the variable definition
position SourcePosition(8, 0, 8). -/
theorem wrongKindRejected :
    execute variableQuery [("color", InputValue.int 123)] =
      Except.error (GraphQLError.validationError
        [⟨"Variable \"$color\" got invalid value. Expected \"Color\", found not a string or enum.",
          [⟨8, 0, 8⟩]⟩]) := by
  rfl

/-- C4: executing the query with the unquoted enum-name literal RED succeeds
with zero errors and a result object whose toString field is the string
Color::Red. -/
theorem enumLiteralAccepted :
    execute enumLiteralQuery [] =
      Except.ok (Value.object [("toString", Value.string "Color::Red")], []) := by
  rfl

/-- C5: executing the variable query with the variable color bound to the
external string RED succeeds with zero errors, the result object holds
toString equal to Color::Red, and the outcome equals that of the literal
form of the query. -/
theorem variableMatchesLiteral :
    execute variableQuery [("color", InputValue.string "RED")] =
      Except.ok (Value.object [("toString", Value.string "Color::Red")], []) ∧
    execute variableQuery [("color", InputValue.string "RED")] =
      execute enumLiteralQuery [] := by
  exact ⟨rfl, rfl⟩

/-- C6: executing the aColor query, whose resolver returns the enum variant
Color::Red, succeeds with zero errors and the result object holds the
variant serialized as its external name, the string RED. -/
theorem outputEnumSerialized :
    execute aColorQuery [] =
      Except.ok (Value.object [("aColor", Value.string "RED")], []) := by
  rfl

/-- C7: whenever validation of a parsed document fails, execute returns the
validation errors as the error of its result, with no data; and whenever
validation succeeds, execute returns an ok result carrying the executed
selection and its field-level error list. -/
theorem validationFailureAborts (q : String)
    (vars : List (String × InputValue)) (doc : Document)
    (hp : parseDocument q = some doc) :
    (∀ errs, validate doc vars = Except.error errs →
      execute q vars = Except.error (GraphQLError.validationError errs)) ∧
    (∀ fs, validate doc vars = Except.ok fs →
      execute q vars = Except.ok (runSelection fs, [])) := by
  constructor
  · intro errs hv
    simp [execute, hp, hv]
  · intro fs hv
    simp [execute, hp, hv]

/-- Witness for C7: the string-literal query parses to a concrete document
whose validation fails, and execute returns exactly that failure. -/
theorem validationFailureAbortsWitness :
    execute stringLiteralQuery [] =
      Except.error (GraphQLError.validationError
        [⟨"Invalid value for argument \"color\", expected type \"Color!\"",
          [⟨18, 0, 18⟩]⟩]) :=
  (validationFailureAborts stringLiteralQuery []
    ⟨none, [],
      [⟨⟨2, 0, 2⟩, "toString",
        [("color", ⟨⟨18, 0, 18⟩, InputValue.string "RED"⟩)]⟩]⟩ rfl).1
    [⟨"Invalid value for argument \"color\", expected type \"Color!\"",
      [⟨18, 0, 18⟩]⟩] rfl

/-- C8: round-trip of the declared enum bijection: coercing the external
name of any Color variant back through the bijection and serializing the
resulting variant yields the same external name. -/
theorem enumRoundTrip (v : Color) :
    (colorFromExternal (colorToExternal v)).map colorToExternal =
      some (colorToExternal v) := by
  cases v <;> rfl

/-- Witness for C8: the round-trip at the variant Color::Red. -/
theorem enumRoundTripWitness :
    (colorFromExternal (colorToExternal Color.red)).map colorToExternal =
      some (colorToExternal Color.red) :=
  enumRoundTrip Color.red

/-- C9: validation and execution are deterministic and pure: two runs on
equal query texts, equal documents and equal variable tables produce equal
outcomes. -/
theorem coercionPure (q1 q2 : String)
    (v1 v2 : List (String × InputValue)) (hq : q1 = q2) (hv : v1 = v2) :
    execute q1 v1 = execute q2 v2 ∧
    ∀ d : Document, validate d v1 = validate d v2 := by
  subst hq
  subst hv
  exact ⟨rfl, fun _ => rfl⟩

/-- Witness for C9: two runs of the aColor query on the empty variable
table agree, and validation of any document agrees across the two runs. -/
theorem coercionPureWitness :
    execute aColorQuery [] = execute aColorQuery [] ∧
    ∀ d : Document, validate d [] = validate d [] :=
  coercionPure aColorQuery aColorQuery [] [] rfl rfl

/-- C10: the snake_case declared field names to_string and a_color are
exposed under their camelCase conversions toString and aColor: the
conversion maps one to the other, field lookup succeeds only under the
camelCase name, and the result objects are keyed by the camelCase names. -/
theorem snakeCaseExposedAsCamelCase :
    toCamelCase "to_string" = "toString" ∧
    toCamelCase "a_color" = "aColor" ∧
    (lookupField (toCamelCase "to_string")).isSome = true ∧
    lookupField "to_string" = none ∧
    execute enumLiteralQuery [] =
      Except.ok (Value.object
        [(toCamelCase "to_string", Value.string "Color::Red")], []) ∧
    execute aColorQuery [] =
      Except.ok (Value.object
        [(toCamelCase "a_color", Value.string "RED")], []) := by
  exact ⟨rfl, rfl, rfl, rfl, rfl, rfl⟩

end JuniperEnums
